import Mathlib

/-!
Shallow embedding of `src/qnet-spec/templates/dpi-compare.py`, a script that
compares two packet captures by bucketing port-443 packet lengths into CDFs
and reporting the maximum absolute per-bucket delta against a threshold.

Python floats arising from `count / total` divisions are modelled as exact
rationals (ℚ); lengths and modification times are integers.  Filesystem and
packet-decoding effects (directory listing, globbing, `scapy.rdpcap`) are
modelled by passing the candidate file list, respectively the decoded packet
list, as explicit arguments.
-/

namespace DpiCompare

/-- Transport layer of a decoded packet (`TCP in p` / `UDP in p` in scapy). -/
inductive Transport where
  | tcp
  | udp
  | other
deriving DecidableEq, Repr

/-- A decoded packet as the script observes it: transport kind, source port,
destination port, and total serialized byte length (`len(bytes(p))`). -/
structure Packet where
  transport : Transport
  sport : Nat
  dport : Nat
  len : Int
deriving DecidableEq, Repr

/-- Embedding of `load_lengths`: the filtering loop of the script.  For each packet in file
order: if it is TCP with source or destination port 443, append its length;
elif it is UDP with source or destination port 443, append its length. -/
def load_lengths : List Packet → List Int
  | [] => []
  | p :: ps =>
    if p.transport = Transport.tcp ∧ (p.sport = 443 ∨ p.dport = 443) then
      p.len :: load_lengths ps
    else if p.transport = Transport.udp ∧ (p.sport = 443 ∨ p.dport = 443) then
      p.len :: load_lengths ps
    else
      load_lengths ps

/-- Spec-side inclusion predicate: transport is TCP or UDP AND
(source port == 443 OR destination port == 443). -/
def includePredicate (p : Packet) : Prop :=
  (p.transport = Transport.tcp ∨ p.transport = Transport.udp) ∧
    (p.sport = 443 ∨ p.dport = 443)

instance (p : Packet) : Decidable (includePredicate p) := by
  unfold includePredicate; infer_instance

/-- Spec-side Packet Filter: lengths of exactly the packets satisfying the
inclusion predicate, in file order, no deduplication, no truncation. -/
def load_lengths_spec (pkts : List Packet) : List Int :=
  (pkts.filter (fun p => decide (includePredicate p))).map Packet.len

/-- The fixed ascending bucket boundaries used by `cdf_buckets`. -/
def buckets : List Int := [1024, 2048, 4096, 8192, 16384, 65536, 131072]

/-- Embedding of `sum(1 for x in lengths if x <= b)`. -/
def count_le (lengths : List Int) (b : Int) : Nat :=
  (lengths.filter (fun x => decide (x ≤ b))).length

/-- Embedding of `cdf_buckets`: one `(boundary, fraction)` point per boundary, where
`total = len(lengths) or 1` (Python `or`: 0 is replaced by 1). -/
def cdf_buckets (lengths : List Int) : List (Int × ℚ) :=
  let total : ℚ := if lengths.length = 0 then 1 else (lengths.length : ℚ)
  buckets.map (fun b => (b, (count_le lengths b : ℚ) / total))

/-- The fraction `cdf_buckets` assigns to a boundary `b`. -/
def fraction (lengths : List Int) (b : Int) : ℚ :=
  (count_le lengths b : ℚ) / (if lengths.length = 0 then 1 else (lengths.length : ℚ))

/-- The per-bucket absolute deltas computed inside `compare`'s loop over
`zip(ca, cb)`. -/
def deltas (a b : List Int) : List ℚ :=
  (List.zip (cdf_buckets a) (cdf_buckets b)).map
    (fun pr => |pr.1.2 - pr.2.2|)

/-- The running maximum of `compare`: `max_delta = 0.0`, then
`if d > max_delta: max_delta = d` for each delta. -/
def maxDelta (a b : List Int) : ℚ :=
  (deltas a b).foldl (fun m d => if m < d then d else m) 0

/-- Embedding of `compare`: folds over `zip(cdf_buckets a, cdf_buckets b)`, asserting at
each pair that the boundaries agree (`assert ba == bb`); `none` models the
AssertionError branch, `some` the returned `max_delta`. -/
def compare (a b : List Int) : Option ℚ :=
  (List.zip (cdf_buckets a) (cdf_buckets b)).foldl
    (fun acc pr =>
      match acc with
      | none => none
      | some m =>
        if pr.1.1 = pr.2.1 then
          some (if m < |pr.1.2 - pr.2.2| then |pr.1.2 - pr.2.2| else m)
        else none)
    (some 0)

/-- The verdict of `main`: `"PASS" if max_delta <= threshold else "FAIL"`. -/
def verdict (threshold max_delta : ℚ) : String :=
  if max_delta ≤ threshold then "PASS" else "FAIL"

/-- The `--threshold` default, `0.10`. -/
def defaultThreshold : ℚ := 10 / 100

/-- A filesystem candidate: a path together with its modification time
(`os.path.getmtime`). -/
structure FsFile where
  path : String
  mtime : Int
deriving DecidableEq, Repr

/-- Outcome of `resolve_input`: either a chosen path plus the informational
messages printed, or `sys.exit` with an exit code and an error message. -/
inductive ResolveResult where
  | ok (path : String) (messages : List String)
  | err (exitCode : Nat) (message : String)
deriving DecidableEq, Repr

/-- Embedding of `max(candidates, key=mtime)` over a nonempty list: Python's `max` keeps
the current best unless a strictly greater key appears, so the first maximal
element wins. -/
def latestOf (c : FsFile) (cs : List FsFile) : FsFile :=
  cs.foldl (fun best x => if best.mtime < x.mtime then x else best) c

/-- Embedding of `resolve_input` after the candidate list has been computed from the
filesystem: empty → error naming the specifier and exit code 2; otherwise the
latest-by-mtime candidate, with an INFO note when more than one matched. -/
def resolve_input (spec : String) (candidates : List FsFile) : ResolveResult :=
  match candidates with
  | [] => ResolveResult.err 2 ("error: no pcap found for input '" ++ spec ++ "'")
  | c :: cs =>
    let latest := latestOf c cs
    let messages :=
      if cs.length = 0 then ([] : List String)
      else ["INFO: matched " ++ toString (cs.length + 1) ++ " files for '" ++ spec
              ++ "', using latest: " ++ latest.path]
    ResolveResult.ok latest.path messages

/-- Embedding of `main` after argument parsing: resolve both specifiers (each failure calls
`sys.exit(2)` before any parsing or comparison), decode both captures
(`parse` stands for `rdpcap` composed with `load_lengths`' input), compare,
print the verdict, and fall off the end of `main` (exit code 0).  Returns the
process exit code and the verdict string when one is printed. -/
def mainRun (stealthSpec baselineSpec : String)
    (stealthCands baselineCands : List FsFile)
    (parse : String → List Packet) (threshold : ℚ) : Nat × Option String :=
  match resolve_input stealthSpec stealthCands with
  | ResolveResult.err code _ => (code, none)
  | ResolveResult.ok stealthPath _ =>
    match resolve_input baselineSpec baselineCands with
    | ResolveResult.err code _ => (code, none)
    | ResolveResult.ok baselinePath _ =>
      let a := load_lengths (parse stealthPath)
      let b := load_lengths (parse baselinePath)
      let max_delta := maxDelta a b
      (0, some (verdict threshold max_delta))

/-- The (rational) denominator used by `cdf_buckets`:
`len(lengths) or 1`. -/
def totalQ (lengths : List Int) : ℚ :=
  if lengths.length = 0 then 1 else (lengths.length : ℚ)

theorem cdf_buckets_eq_map (lengths : List Int) :
    cdf_buckets lengths = buckets.map (fun b => (b, fraction lengths b)) := rfl

theorem fraction_def (lengths : List Int) (b : Int) :
    fraction lengths b = (count_le lengths b : ℚ) / totalQ lengths := rfl

theorem totalQ_pos (lengths : List Int) : 0 < totalQ lengths := by
  unfold totalQ
  split
  · norm_num
  · exact_mod_cast Nat.pos_of_ne_zero (by assumption)

theorem count_le_le_length (lengths : List Int) (b : Int) :
    count_le lengths b ≤ lengths.length := by
  unfold count_le
  exact List.length_filter_le _ _

theorem count_le_cast_le_totalQ (lengths : List Int) (b : Int) :
    (count_le lengths b : ℚ) ≤ totalQ lengths := by
  unfold totalQ
  split
  · have h0 : lengths.length = 0 := by assumption
    have h1 : count_le lengths b = 0 := Nat.le_zero.mp (h0 ▸ count_le_le_length lengths b)
    simp [h1]
  · exact_mod_cast count_le_le_length lengths b

theorem fraction_nonneg (lengths : List Int) (b : Int) : 0 ≤ fraction lengths b := by
  rw [fraction_def]
  exact div_nonneg (by positivity) (le_of_lt (totalQ_pos lengths))

theorem fraction_le_one (lengths : List Int) (b : Int) : fraction lengths b ≤ 1 := by
  rw [fraction_def, div_le_one (totalQ_pos lengths)]
  exact count_le_cast_le_totalQ lengths b

theorem count_le_mono (lengths : List Int) {b b' : Int} (h : b ≤ b') :
    count_le lengths b ≤ count_le lengths b' := by
  unfold count_le
  refine List.Sublist.length_le (List.monotone_filter_right lengths (fun x hx => ?_))
  simp only [decide_eq_true_eq] at hx ⊢
  exact le_trans hx h

theorem fraction_mono (lengths : List Int) {b b' : Int} (h : b ≤ b') :
    fraction lengths b ≤ fraction lengths b' := by
  rw [fraction_def, fraction_def, div_le_div_iff_of_pos_right]
  · exact_mod_cast count_le_mono lengths h
  · exact totalQ_pos lengths

theorem deltas_eq_map (a b : List Int) :
    deltas a b = buckets.map (fun k => |fraction a k - fraction b k|) := by
  unfold deltas
  rw [cdf_buckets_eq_map, cdf_buckets_eq_map, List.zip_map', List.map_map]
  rfl

theorem step_eq_max (m d : ℚ) : (if m < d then d else m) = max m d := by
  rcases lt_or_ge m d with h | h
  · simp [h, max_eq_right (le_of_lt h)]
  · simp [not_lt.mpr h, max_eq_left h]

theorem maxDelta_eq_foldl_max (a b : List Int) :
    maxDelta a b = (deltas a b).foldl max 0 := by
  unfold maxDelta
  congr 1
  funext m d
  exact step_eq_max m d

theorem le_foldl_max (l : List ℚ) (init : ℚ) : init ≤ l.foldl max init := by
  induction l generalizing init with
  | nil => exact le_refl _
  | cons x xs ih => exact le_trans (le_max_left init x) (ih (max init x))

theorem mem_le_foldl_max {x : ℚ} {l : List ℚ} (init : ℚ) (hx : x ∈ l) :
    x ≤ l.foldl max init := by
  induction l generalizing init with
  | nil => cases hx
  | cons y ys ih =>
    rcases List.mem_cons.mp hx with rfl | hmem
    · exact le_trans (le_max_right init x) (le_foldl_max ys (max init x))
    · exact ih (max init y) hmem

theorem foldl_max_le {l : List ℚ} {init c : ℚ} (h0 : init ≤ c)
    (h : ∀ x ∈ l, x ≤ c) : l.foldl max init ≤ c := by
  induction l generalizing init with
  | nil => exact h0
  | cons y ys ih =>
    exact ih (max_le h0 (h y (List.mem_cons_self y ys)))
      (fun x hx => h x (List.mem_cons_of_mem y hx))

theorem foldl_max_mem (l : List ℚ) (init : ℚ) :
    l.foldl max init = init ∨ l.foldl max init ∈ l := by
  induction l generalizing init with
  | nil => exact Or.inl rfl
  | cons y ys ih =>
    rcases ih (max init y) with h | h
    · rcases le_total init y with hle | hle
      · right
        rw [List.foldl_cons, h, max_eq_right hle]
        exact List.mem_cons_self y ys
      · left
        rw [List.foldl_cons, h, max_eq_left hle]
    · exact Or.inr (List.mem_cons_of_mem y h)

theorem deltas_nonneg (a b : List Int) : ∀ d ∈ deltas a b, 0 ≤ d := by
  intro d hd
  rw [deltas_eq_map] at hd
  rcases List.mem_map.mp hd with ⟨k, _, rfl⟩
  exact abs_nonneg _

theorem deltas_le_one (a b : List Int) : ∀ d ∈ deltas a b, d ≤ 1 := by
  intro d hd
  rw [deltas_eq_map] at hd
  rcases List.mem_map.mp hd with ⟨k, _, rfl⟩
  rw [abs_sub_le_iff]
  constructor
  · linarith [fraction_le_one a k, fraction_nonneg b k]
  · linarith [fraction_le_one b k, fraction_nonneg a k]

theorem deltas_ne_nil (a b : List Int) : deltas a b ≠ [] := by
  rw [deltas_eq_map]
  simp [buckets]

theorem maxDelta_nonneg (a b : List Int) : 0 ≤ maxDelta a b := by
  rw [maxDelta_eq_foldl_max]
  exact le_foldl_max _ 0

theorem maxDelta_le_one (a b : List Int) : maxDelta a b ≤ 1 := by
  rw [maxDelta_eq_foldl_max]
  exact foldl_max_le (by norm_num) (deltas_le_one a b)

theorem le_maxDelta (a b : List Int) : ∀ d ∈ deltas a b, d ≤ maxDelta a b := by
  intro d hd
  rw [maxDelta_eq_foldl_max]
  exact mem_le_foldl_max 0 hd

theorem maxDelta_mem (a b : List Int) : maxDelta a b ∈ deltas a b := by
  rw [maxDelta_eq_foldl_max]
  rcases foldl_max_mem (deltas a b) 0 with h | h
  · rw [h]
    rcases hne : deltas a b with _ | ⟨d, ds⟩
    · exact absurd hne (deltas_ne_nil a b)
    · have hd0 : 0 ≤ d := deltas_nonneg a b d (hne ▸ List.mem_cons_self d ds)
      have hdle : d ≤ (deltas a b).foldl max 0 :=
        mem_le_foldl_max 0 (hne ▸ List.mem_cons_self d ds)
      rw [h] at hdle
      have hd : d = 0 := le_antisymm hdle hd0
      rw [← hd]
      exact List.mem_cons_self d ds
  · exact h

theorem zip_cdf_eq (a b : List Int) :
    List.zip (cdf_buckets a) (cdf_buckets b) =
      buckets.map (fun k => ((k, fraction a k), (k, fraction b k))) := by
  rw [cdf_buckets_eq_map, cdf_buckets_eq_map, List.zip_map']

theorem zip_boundaries_eq (a b : List Int) :
    ∀ pr ∈ List.zip (cdf_buckets a) (cdf_buckets b), pr.1.1 = pr.2.1 := by
  intro pr hpr
  rw [zip_cdf_eq] at hpr
  rcases List.mem_map.mp hpr with ⟨k, _, rfl⟩
  rfl

theorem compare_foldl_eq (l : List ((Int × ℚ) × (Int × ℚ)))
    (h : ∀ pr ∈ l, pr.1.1 = pr.2.1) (m : ℚ) :
    (l.foldl (fun acc pr =>
      match acc with
      | none => none
      | some m =>
        if pr.1.1 = pr.2.1 then
          some (if m < |pr.1.2 - pr.2.2| then |pr.1.2 - pr.2.2| else m)
        else none) (some m))
    = some (l.foldl (fun m pr =>
        if m < |pr.1.2 - pr.2.2| then |pr.1.2 - pr.2.2| else m) m) := by
  induction l generalizing m with
  | nil => rfl
  | cons pr prs ih =>
    simp only [List.foldl_cons]
    rw [if_pos (h pr (List.mem_cons_self _ _))]
    exact ih (fun q hq => h q (List.mem_cons_of_mem _ hq)) _

theorem maxDelta_eq_foldl_zip (a b : List Int) :
    maxDelta a b = (List.zip (cdf_buckets a) (cdf_buckets b)).foldl
      (fun m pr => if m < |pr.1.2 - pr.2.2| then |pr.1.2 - pr.2.2| else m) 0 := by
  unfold maxDelta deltas
  rw [List.foldl_map]

theorem compare_eq_some (a b : List Int) :
    compare a b = some (maxDelta a b) := by
  unfold compare
  rw [compare_foldl_eq _ (zip_boundaries_eq a b) 0, maxDelta_eq_foldl_zip]

theorem count_le_eq_length_iff (lengths : List Int) (b : Int) :
    count_le lengths b = lengths.length ↔ ∀ x ∈ lengths, x ≤ b := by
  unfold count_le
  constructor
  · intro h x hx
    have hsub : lengths.filter (fun x => decide (x ≤ b)) = lengths :=
      List.Sublist.eq_of_length (List.filter_sublist lengths) h
    have := hsub ▸ hx
    exact of_decide_eq_true ((List.mem_filter.mp this).2)
  · intro h
    rw [List.filter_eq_self.mpr (fun x hx => decide_eq_true (h x hx))]

theorem fraction_eq_one_iff (lengths : List Int) (h : lengths ≠ []) (b : Int) :
    fraction lengths b = 1 ↔ ∀ x ∈ lengths, x ≤ b := by
  have hlen : lengths.length ≠ 0 := fun h0 => h (List.length_eq_zero.mp h0)
  rw [fraction_def]
  unfold totalQ
  rw [if_neg hlen, div_eq_one_iff_eq (by exact_mod_cast hlen)]
  rw [Nat.cast_inj]
  exact count_le_eq_length_iff lengths b

theorem fracs_getLast (lengths : List Int) :
    ((cdf_buckets lengths).map Prod.snd).getLast? = some (fraction lengths 131072) := by
  rw [cdf_buckets_eq_map]
  rfl

theorem maximum_le_iff_forall (lengths : List Int) (m : Int)
    (hm : lengths.maximum = some m) (b : Int) :
    (∀ x ∈ lengths, x ≤ b) ↔ m ≤ b := by
  constructor
  · intro h
    exact h m (List.maximum_mem hm)
  · intro h x hx
    exact le_trans (List.le_maximum_of_mem hx hm) h

theorem fracs_chain (lengths : List Int) :
    List.Chain' (· ≤ ·) ((cdf_buckets lengths).map Prod.snd) := by
  rw [cdf_buckets_eq_map, List.map_map]
  show List.Chain' (· ≤ ·) (buckets.map (fun b => fraction lengths b))
  simp only [buckets, List.map_cons, List.map_nil, List.chain'_cons, List.chain'_singleton,
    and_true]
  refine ⟨?_, ?_, ?_, ?_, ?_, ?_⟩ <;> exact fraction_mono lengths (by norm_num)

theorem load_lengths_eq_spec (pkts : List Packet) :
    load_lengths pkts = load_lengths_spec pkts := by
  induction pkts with
  | nil => rfl
  | cons p ps ih =>
    unfold load_lengths load_lengths_spec
    rw [List.filter_cons]
    by_cases htcp : p.transport = Transport.tcp ∧ (p.sport = 443 ∨ p.dport = 443)
    · rw [if_pos htcp]
      have hinc : includePredicate p := ⟨Or.inl htcp.1, htcp.2⟩
      simp only [decide_eq_true (by exact hinc), if_pos]
      rw [List.map_cons, ih]
      rfl
    · rw [if_neg htcp]
      by_cases hudp : p.transport = Transport.udp ∧ (p.sport = 443 ∨ p.dport = 443)
      · rw [if_pos hudp]
        have hinc : includePredicate p := ⟨Or.inr hudp.1, hudp.2⟩
        simp only [decide_eq_true (by exact hinc), if_pos]
        rw [List.map_cons, ih]
        rfl
      · rw [if_neg hudp]
        have hninc : ¬ includePredicate p := by
          rintro ⟨htr | htr, hport⟩
          · exact htcp ⟨htr, hport⟩
          · exact hudp ⟨htr, hport⟩
        simp only [decide_eq_false hninc, Bool.false_eq_true, if_false]
        rw [ih]
        rfl

/-- C1: one CDF point per boundary in the fixed ascending order; each fraction
is (count of samples ≤ boundary) / total, with denominator 1 (hence fraction
exactly 0) when the sample list is empty. -/
theorem C1_cdf_points (lengths : List Int) :
    (cdf_buckets lengths).map Prod.fst =
      [1024, 2048, 4096, 8192, 16384, 65536, 131072] ∧
    (lengths ≠ [] →
      ∀ p ∈ cdf_buckets lengths,
        p.2 = (count_le lengths p.1 : ℚ) / (lengths.length : ℚ)) ∧
    (lengths = [] →
      ∀ p ∈ cdf_buckets lengths,
        p.2 = (count_le lengths p.1 : ℚ) / 1 ∧ p.2 = 0) := by
  refine ⟨?_, ?_, ?_⟩
  · rw [cdf_buckets_eq_map, List.map_map]
    rfl
  · intro h p hp
    rw [cdf_buckets_eq_map] at hp
    rcases List.mem_map.mp hp with ⟨k, _, rfl⟩
    have hlen : lengths.length ≠ 0 := fun h0 => h (List.length_eq_zero.mp h0)
    show fraction lengths k = _
    rw [fraction_def]
    unfold totalQ
    rw [if_neg hlen]
  · intro h p hp
    subst h
    rw [cdf_buckets_eq_map] at hp
    rcases List.mem_map.mp hp with ⟨k, _, rfl⟩
    refine ⟨?_, ?_⟩
    · show fraction [] k = _
      rw [fraction_def]
      unfold totalQ
      rfl
    · show fraction [] k = 0
      rw [fraction_def]
      have : count_le [] k = 0 := rfl
      rw [this]
      simp

/-- C2: per-bucket deltas are the absolute fraction differences at each
boundary, max_delta is the maximum over them, the verdict is PASS exactly
when max_delta ≤ threshold and FAIL otherwise, and the default threshold
is 0.10. -/
theorem C2_compare_verdict (a b : List Int) (threshold : ℚ) :
    deltas a b = buckets.map (fun k => |fraction a k - fraction b k|) ∧
    maxDelta a b ∈ deltas a b ∧
    (∀ d ∈ deltas a b, d ≤ maxDelta a b) ∧
    (verdict threshold (maxDelta a b) = "PASS" ↔ maxDelta a b ≤ threshold) ∧
    (verdict threshold (maxDelta a b) = "FAIL" ↔ ¬ maxDelta a b ≤ threshold) ∧
    defaultThreshold = 10 / 100 := by
  refine ⟨deltas_eq_map a b, maxDelta_mem a b, le_maxDelta a b, ?_, ?_, rfl⟩
  · unfold verdict
    split
    · simpa
    · simp_all
  · unfold verdict
    split
    · simp_all
    · simp_all

/-- C3: the Packet Filter emits, in file order, the length of exactly those
packets whose transport is TCP or UDP with source or destination port 443. -/
theorem C3_packet_filter (pkts : List Packet) :
    load_lengths pkts = load_lengths_spec pkts :=
  load_lengths_eq_spec pkts

/-- C5: the Comparator is symmetric in delta magnitude, and comparing a list
with itself yields max_delta 0. -/
theorem C5_symmetric (a b : List Int) :
    deltas a b = deltas b a ∧ maxDelta a b = maxDelta b a ∧ maxDelta a a = 0 := by
  have hsym : deltas a b = deltas b a := by
    rw [deltas_eq_map, deltas_eq_map]
    exact List.map_congr_left (fun k _ => abs_sub_comm _ _)
  refine ⟨hsym, ?_, ?_⟩
  · unfold maxDelta
    rw [hsym]
  · have h0 : ∀ d ∈ deltas a a, d ≤ 0 := by
      intro d hd
      rw [deltas_eq_map] at hd
      rcases List.mem_map.mp hd with ⟨k, _, rfl⟩
      simp
    refine le_antisymm ?_ (maxDelta_nonneg a a)
    rw [maxDelta_eq_foldl_max]
    exact foldl_max_le (le_refl 0) h0

/-- C4: CDF fractions are monotonically non-decreasing across the ascending
boundaries, and for a non-empty sample list the last CDF fraction equals 1
iff the largest sample length is ≤ 131072. -/
theorem C4_monotone_and_last (lengths : List Int) :
    List.Chain' (· ≤ ·) ((cdf_buckets lengths).map Prod.snd) ∧
    (∀ m : Int, lengths.maximum = some m →
      ((cdf_buckets lengths).map Prod.snd).getLast? = some (fraction lengths 131072) ∧
      (fraction lengths 131072 = 1 ↔ m ≤ 131072)) := by
  refine ⟨fracs_chain lengths, ?_⟩
  intro m hm
  have hne : lengths ≠ [] := List.ne_nil_of_mem (List.maximum_mem hm)
  exact ⟨fracs_getLast lengths,
    (fraction_eq_one_iff lengths hne 131072).trans
      (maximum_le_iff_forall lengths m hm 131072)⟩

theorem latestOf_cons (c d : FsFile) (ds : List FsFile) :
    latestOf c (d :: ds) = latestOf (if c.mtime < d.mtime then d else c) ds := rfl

theorem latestOf_mem (c : FsFile) (cs : List FsFile) : latestOf c cs ∈ c :: cs := by
  induction cs generalizing c with
  | nil => exact List.mem_cons_self c []
  | cons d ds ih =>
    rw [latestOf_cons]
    rcases List.mem_cons.mp (ih (if c.mtime < d.mtime then d else c)) with h | h
    · rw [h]
      split
      · exact List.mem_cons_of_mem c (List.mem_cons_self d ds)
      · exact List.mem_cons_self c (d :: ds)
    · exact List.mem_cons_of_mem c (List.mem_cons_of_mem d h)

theorem le_latestOf (c : FsFile) (cs : List FsFile) :
    ∀ x ∈ c :: cs, x.mtime ≤ (latestOf c cs).mtime := by
  induction cs generalizing c with
  | nil =>
    intro x hx
    rcases List.mem_cons.mp hx with rfl | h
    · exact le_refl _
    · cases h
  | cons d ds ih =>
    have hstep : c.mtime ≤ (if c.mtime < d.mtime then d else c).mtime ∧
        d.mtime ≤ (if c.mtime < d.mtime then d else c).mtime := by
      split
      · exact ⟨le_of_lt (by assumption), le_refl _⟩
      · exact ⟨le_refl _, not_lt.mp (by assumption)⟩
    have hself := ih (if c.mtime < d.mtime then d else c) _
      (List.mem_cons_self _ ds)
    intro x hx
    rw [latestOf_cons]
    rcases List.mem_cons.mp hx with rfl | hx
    · exact le_trans hstep.1 hself
    · rcases List.mem_cons.mp hx with rfl | hx
      · exact le_trans hstep.2 hself
      · exact ih _ x (List.mem_cons_of_mem _ hx)

/-- C6: with multiple candidates the Input Resolver selects the candidate
with the latest modification timestamp — the chosen file is itself a
candidate and is at least as recently modified as every candidate; for two
files with t1 < t2 it returns the t2 file, in either presentation order, and
emits the INFO note naming the number of matches and the chosen file. -/
theorem C6_latest_selected (spec : String) (f g : FsFile) (h : f.mtime < g.mtime)
    (c : FsFile) (cs : List FsFile) :
    (latestOf c cs ∈ c :: cs ∧ ∀ x ∈ c :: cs, x.mtime ≤ (latestOf c cs).mtime) ∧
    resolve_input spec [f, g] = ResolveResult.ok g.path
      ["INFO: matched 2 files for '" ++ spec ++ "', using latest: " ++ g.path] ∧
    resolve_input spec [g, f] = ResolveResult.ok g.path
      ["INFO: matched 2 files for '" ++ spec ++ "', using latest: " ++ g.path] := by
  refine ⟨⟨latestOf_mem c cs, le_latestOf c cs⟩, ?_, ?_⟩
  · show ResolveResult.ok (latestOf f [g]).path _ = _
    rw [show latestOf f [g] = g from by simp [latestOf, h]]
    norm_num
    rfl
  · show ResolveResult.ok (latestOf g [f]).path _ = _
    rw [show latestOf g [f] = g from by simp [latestOf, not_lt.mpr (le_of_lt h)]]
    norm_num
    rfl

/-- C7: an empty candidate set makes the Input Resolver fail with an error
message naming the original specifier and exit code 2, and the run terminates
before any parsing or comparison (no verdict is produced). -/
theorem C7_input_not_found (spec baselineSpec : String)
    (baselineCands : List FsFile) (parse : String → List Packet) (threshold : ℚ) :
    resolve_input spec [] =
      ResolveResult.err 2 ("error: no pcap found for input '" ++ spec ++ "'") ∧
    mainRun spec baselineSpec [] baselineCands parse threshold = (2, none) := by
  exact ⟨rfl, rfl⟩

/-- C8: whenever both specifiers resolve (both candidate sets are non-empty),
the run completes with exit code 0 and prints a PASS or FAIL verdict; the
verdict never changes the exit status. -/
theorem C8_exit_zero (stealthSpec baselineSpec : String)
    (stealthCands baselineCands : List FsFile)
    (parse : String → List Packet) (threshold : ℚ)
    (h1 : stealthCands ≠ []) (h2 : baselineCands ≠ []) :
    (mainRun stealthSpec baselineSpec stealthCands baselineCands parse threshold).1 = 0 ∧
    ∃ v, (mainRun stealthSpec baselineSpec stealthCands baselineCands parse threshold).2
        = some v ∧ (v = "PASS" ∨ v = "FAIL") := by
  rcases stealthCands with _ | ⟨c, cs⟩
  · exact absurd rfl h1
  rcases baselineCands with _ | ⟨d, ds⟩
  · exact absurd rfl h2
  refine ⟨rfl, verdict threshold (maxDelta
      (load_lengths (parse (latestOf c cs).path))
      (load_lengths (parse (latestOf d ds).path))), rfl, ?_⟩
  unfold verdict
  split
  · exact Or.inl rfl
  · exact Or.inr rfl

/-- C9: the internal assertion `assert ba == bb` in the Comparator never
fails: both CDF sequences are built over the same constant bucket list, so
every zipped pair has identical boundaries and `compare` always returns its
max_delta rather than hitting the assertion branch. -/
theorem C9_assert_unreachable (a b : List Int) :
    (∀ pr ∈ List.zip (cdf_buckets a) (cdf_buckets b), pr.1.1 = pr.2.1) ∧
    compare a b = some (maxDelta a b) :=
  ⟨zip_boundaries_eq a b, compare_eq_some a b⟩

/-- C10: every CDF fraction lies in [0, 1], hence every per-bucket delta and
the returned max_delta lie in [0, 1]. -/
theorem C10_bounds (a b : List Int) :
    (∀ p ∈ cdf_buckets a, 0 ≤ p.2 ∧ p.2 ≤ 1) ∧
    (∀ p ∈ cdf_buckets b, 0 ≤ p.2 ∧ p.2 ≤ 1) ∧
    (∀ d ∈ deltas a b, 0 ≤ d ∧ d ≤ 1) ∧
    0 ≤ maxDelta a b ∧ maxDelta a b ≤ 1 := by
  refine ⟨?_, ?_, ?_, maxDelta_nonneg a b, maxDelta_le_one a b⟩
  · intro p hp
    rw [cdf_buckets_eq_map] at hp
    rcases List.mem_map.mp hp with ⟨k, _, rfl⟩
    exact ⟨fraction_nonneg a k, fraction_le_one a k⟩
  · intro p hp
    rw [cdf_buckets_eq_map] at hp
    rcases List.mem_map.mp hp with ⟨k, _, rfl⟩
    exact ⟨fraction_nonneg b k, fraction_le_one b k⟩
  · intro d hd
    exact ⟨deltas_nonneg a b d hd, deltas_le_one a b d hd⟩

theorem C1_cdf_points_witness :
    ((1024 : ℤ), fraction [500, 1500, 3000] 1024).2 =
      (count_le [500, 1500, 3000] ((1024 : ℤ), fraction [500, 1500, 3000] 1024).1 : ℚ) /
        (([500, 1500, 3000] : List ℤ).length : ℚ) ∧
    (((1024 : ℤ), fraction [] 1024).2 =
        (count_le [] ((1024 : ℤ), fraction [] 1024).1 : ℚ) / 1 ∧
      ((1024 : ℤ), fraction [] 1024).2 = 0) :=
  ⟨(C1_cdf_points [500, 1500, 3000]).2.1 (by simp) _
      (by rw [cdf_buckets_eq_map]; exact List.mem_map_of_mem _ (by simp [buckets])),
    (C1_cdf_points []).2.2 rfl _
      (by rw [cdf_buckets_eq_map]; exact List.mem_map_of_mem _ (by simp [buckets]))⟩

theorem C2_compare_verdict_witness :
    maxDelta [500, 1500, 3000] [500, 500, 500] ≤
      maxDelta [500, 1500, 3000] [500, 500, 500] ∧
    (verdict (10/100) (maxDelta [500, 1500, 3000] [500, 500, 500]) = "FAIL" ↔
      ¬ maxDelta [500, 1500, 3000] [500, 500, 500] ≤ 10/100) ∧
    verdict (10/100) (maxDelta [500, 1500, 3000] [500, 500, 500]) = "FAIL" := by
  have h := C2_compare_verdict [500, 1500, 3000] [500, 500, 500] (10/100)
  refine ⟨h.2.2.1 _ h.2.1, h.2.2.2.2.1, ?_⟩
  have hmd : maxDelta [500, 1500, 3000] [500, 500, 500] = 2/3 := by
    norm_num [maxDelta, deltas, cdf_buckets, count_le, buckets, abs, max_def]
  rw [hmd]
  norm_num [verdict]

theorem C4_monotone_and_last_witness :
    ((cdf_buckets [500]).map Prod.snd).getLast? = some (fraction [500] 131072) ∧
    (fraction [500] 131072 = 1 ↔ (500 : ℤ) ≤ 131072) :=
  (C4_monotone_and_last [500]).2 500 rfl

theorem C6_latest_selected_witness :
    (latestOf ⟨"old", 1⟩ [⟨"new", 2⟩] ∈ [(⟨"old", 1⟩ : FsFile), ⟨"new", 2⟩] ∧
      ∀ x ∈ [(⟨"old", 1⟩ : FsFile), ⟨"new", 2⟩],
        x.mtime ≤ (latestOf ⟨"old", 1⟩ [⟨"new", 2⟩]).mtime) ∧
    resolve_input "cap" [⟨"old", 1⟩, ⟨"new", 2⟩] = ResolveResult.ok "new"
      ["INFO: matched 2 files for '" ++ "cap" ++ "', using latest: " ++ "new"] ∧
    resolve_input "cap" [⟨"new", 2⟩, ⟨"old", 1⟩] = ResolveResult.ok "new"
      ["INFO: matched 2 files for '" ++ "cap" ++ "', using latest: " ++ "new"] :=
  C6_latest_selected "cap" ⟨"old", 1⟩ ⟨"new", 2⟩ (by norm_num) ⟨"old", 1⟩ [⟨"new", 2⟩]

theorem C8_exit_zero_witness :
    (mainRun "s" "b" [⟨"sp", 0⟩] [⟨"bp", 0⟩]
      (fun p => if p = "sp" then
          [⟨Transport.tcp, 443, 1, 500⟩, ⟨Transport.tcp, 443, 1, 1500⟩,
            ⟨Transport.tcp, 443, 1, 3000⟩]
        else [⟨Transport.tcp, 443, 1, 500⟩, ⟨Transport.tcp, 443, 1, 500⟩,
          ⟨Transport.tcp, 443, 1, 500⟩])
      (10/100)).1 = 0 ∧
    (mainRun "s" "b" [⟨"sp", 0⟩] [⟨"bp", 0⟩]
      (fun p => if p = "sp" then
          [⟨Transport.tcp, 443, 1, 500⟩, ⟨Transport.tcp, 443, 1, 1500⟩,
            ⟨Transport.tcp, 443, 1, 3000⟩]
        else [⟨Transport.tcp, 443, 1, 500⟩, ⟨Transport.tcp, 443, 1, 500⟩,
          ⟨Transport.tcp, 443, 1, 500⟩])
      (10/100)).2 = some "FAIL" := by
  constructor
  · exact (C8_exit_zero "s" "b" [⟨"sp", 0⟩] [⟨"bp", 0⟩] _ (10/100)
      (by simp) (by simp)).1
  · norm_num [mainRun, resolve_input, latestOf, load_lengths, verdict, maxDelta,
      deltas, cdf_buckets, count_le, buckets, abs, max_def]

theorem C9_assert_unreachable_witness :
    (((1024 : ℤ), fraction [5] 1024), ((1024 : ℤ), fraction [7] 1024)).1.1 =
      (((1024 : ℤ), fraction [5] 1024), ((1024 : ℤ), fraction [7] 1024)).2.1 ∧
    compare [5] [7] = some (maxDelta [5] [7]) :=
  ⟨(C9_assert_unreachable [5] [7]).1 _
      (by rw [zip_cdf_eq]; exact List.mem_map_of_mem _ (by simp [buckets])),
    (C9_assert_unreachable [5] [7]).2⟩

theorem C10_bounds_witness :
    (0 ≤ ((1024 : ℤ), fraction [5] 1024).2 ∧ ((1024 : ℤ), fraction [5] 1024).2 ≤ 1) ∧
    0 ≤ maxDelta [5] [7] ∧ maxDelta [5] [7] ≤ 1 :=
  ⟨(C10_bounds [5] [7]).1 _
      (by rw [cdf_buckets_eq_map]; exact List.mem_map_of_mem _ (by simp [buckets])),
    (C10_bounds [5] [7]).2.2.2⟩

end DpiCompare
